import Mathlib

/-!
Verification of the core of cargo-dfu (src/main.rs, src/utils.rs): the
ELF-to-flat-binary converter `elf_to_bin`, the bounded-retry device search
`find_device` with its `vendor_map` identifier table, and the flash-outcome
classification performed by `main` around `flash_bin`.

The embedding is shallow: machine integers are `Nat` (the one place the code
checks a width, `u32::try_from(start_address)`, is modelled by an explicit
`2 ^ 32` bound), byte buffers are `List Nat`, and the external libraries
(goblin's parsed ELF, rusb's USB bus, dfu-libusb's transfer session, the
retry crate's combinator) are modelled by explicit data following their
documented contracts, as each definition's comment records.
-/

namespace CargoDfu

/-! ## The parsed ELF (goblin's view of it, as utils.rs reads it) -/

/-- goblin's `program_header::PT_LOAD`. -/
def PT_LOAD : Nat := 1

/-- goblin's `program_header::PF_R` (segment readable flag). -/
def PF_R : Nat := 4

/-- One entry of `binary.program_headers`: the fields `elf_to_bin` reads.
`p_type`, `p_flags` are u32, `p_offset`, `p_filesz`, `p_paddr` are u64. -/
structure ProgramHeader where
  p_type : Nat
  p_offset : Nat
  p_filesz : Nat
  p_paddr : Nat
  p_flags : Nat
deriving DecidableEq, Repr

/-- goblin's `ProgramHeader::is_read`: the PF_R bit of `p_flags` is set. -/
def ProgramHeader.is_read (ph : ProgramHeader) : Bool :=
  ph.p_flags &&& PF_R != 0

/-- The parsed executable, as `elf_to_bin` uses it after
`goblin::elf::Elf::parse`: the artifact header size `header.e_ehsize` (u16)
and the program-header table. -/
structure Elf where
  e_ehsize : Nat
  program_headers : List ProgramHeader
deriving DecidableEq, Repr

/-! ## elf_to_bin (src/utils.rs lines 19-62) -/

/-- The filter of utils.rs lines 33-38: `ph.p_type == PT_LOAD &&
ph.p_filesz > 0 && ph.p_offset >= u64::from(binary.header.e_ehsize) &&
ph.is_read()`. -/
def qualifies (e_ehsize : Nat) (ph : ProgramHeader) : Bool :=
  ph.p_type == PT_LOAD && decide (0 < ph.p_filesz) &&
    decide (e_ehsize ≤ ph.p_offset) && ph.is_read

/-- The segments the loop of `elf_to_bin` iterates over: the program-header
table filtered by `qualifies` (utils.rs lines 30-39). -/
def includedSegments (binary : Elf) : List ProgramHeader :=
  binary.program_headers.filter (qualifies binary.e_ehsize)

/-- The slice `&buffer[ph.p_offset as usize..][..ph.p_filesz as usize]` of
utils.rs line 52 (in Rust an out-of-range slice panics; the theorems that
speak about segment contents carry the in-range hypothesis
`p_offset + p_filesz ≤ buffer.length`). -/
def segmentBytes (buffer : List Nat) (ph : ProgramHeader) : List Nat :=
  (buffer.drop ph.p_offset).take ph.p_filesz

/-- The `for (i, ph) in ...enumerate()` loop of utils.rs lines 30-55, with
the mutable state `(start_address, last_address, data)` passed explicitly
and `i` the enumeration index.  On `i == 0` it grabs `ph.p_paddr` as the
start address; later it first appends `ph.p_paddr - last_address` zero bytes
(`data.resize(data.len() + difference, 0x0)`); u64 subtraction underflow
(a Rust panic in debug, wraparound in release) is the case
`ph.p_paddr < last_address`, tracked separately by `gapsOk`. -/
def elf_to_bin_loop (buffer : List Nat) :
    List ProgramHeader → Nat → Nat → Nat → List Nat → Nat × Nat × List Nat
  | [], _, start_address, last_address, data => (start_address, last_address, data)
  | ph :: phs, i, start_address, last_address, data =>
    let start_address' := if i = 0 then ph.p_paddr else start_address
    let data' := if i = 0 then data
      else data ++ List.replicate (ph.p_paddr - last_address) 0
    elf_to_bin_loop buffer phs (i + 1) start_address'
      (ph.p_paddr + ph.p_filesz) (data' ++ segmentBytes buffer ph)

/-- The message `u32::try_from` puts in the `TryFromIntError` that utils.rs
line 60 wraps into `UtilError::Elf(goblin::error::Error::Malformed(_))`. -/
def overflow_msg : String := "out of range integral type conversion attempted"

/-- goblin's `error::Error`, reduced to the one variant utils.rs constructs
(`Malformed`); parse failures themselves happen before the embedded code
runs. -/
inductive GoblinError where
  | Malformed (msg : String)
deriving DecidableEq, Repr

/-- rusb's `Error`, reduced to the variant main.rs matches on (`NoDevice`)
plus representatives of the other transport failures. -/
inductive RusbError where
  | NoDevice
  | Io
  | Access
  | Busy
  | Timeout
deriving DecidableEq, Repr

/-- dfu-libusb's `Error`: its transport variant `LibUsb(rusb::Error)`, which
main.rs inspects, and an opaque constructor standing for every other variant
of the library's error type. -/
inductive DfuError where
  | LibUsb (e : RusbError)
  | Core (msg : String)
deriving DecidableEq, Repr

/-- `UtilError` of src/utils.rs lines 11-16 (the `std::io::Error` payload of
`File` reduced to its message). -/
inductive UtilError where
  | Elf (e : GoblinError)
  | Dfu (e : DfuError)
  | File (msg : String)
deriving DecidableEq, Repr

/-- `elf_to_bin` of src/utils.rs lines 19-62, from the point where the file
bytes `buffer` have been read and goblin has parsed them into `binary` (file
I/O and the parser are external; their failures exit before this code).
Runs the loop over the qualifying segments and converts the start address to
u32, a conversion that fails exactly when `2 ^ 32 ≤ start_address`, wrapped
as `UtilError::Elf(Malformed(_))`.  The Rust returns `Ok((data, address))`. -/
def elf_to_bin (binary : Elf) (buffer : List Nat) :
    Except UtilError (List Nat × Nat) :=
  let r := elf_to_bin_loop buffer (includedSegments binary) 0 0 0 []
  if r.1 < 2 ^ 32 then .ok (r.2.2, r.1)
  else .error (.Elf (.Malformed overflow_msg))

/-- The data component `elf_to_bin` computes (the `data` vector after the
loop), named so that theorems can speak about the ok result without
repeating the loop expression. -/
def elf_bin_data (binary : Elf) (buffer : List Nat) : List Nat :=
  (elf_to_bin_loop buffer (includedSegments binary) 0 0 0 []).2.2

/-- Instrumentation of the loop of utils.rs lines 30-55: the same iteration
(`i` counts from 0, `last_address` becomes `ph.p_paddr + ph.p_filesz` after
every segment), recording whether each gap subtraction
`ph.p_paddr - last_address` of line 48, performed whenever `i ≠ 0`, stays
within u64 (no underflow: `last_address ≤ ph.p_paddr`). -/
def gapsOk : List ProgramHeader → Nat → Nat → Bool
  | [], _, _ => true
  | ph :: phs, i, last_address =>
    (i == 0 || decide (last_address ≤ ph.p_paddr)) &&
      gapsOk phs (i + 1) (ph.p_paddr + ph.p_filesz)

/-! ## The USB bus and vendor_map (src/utils.rs lines 78-139) -/

/-- The (vendor_id, product_id) of one connected device, as rusb's device
descriptor exposes them (spec section 6's transport contract). -/
structure DeviceDescriptor where
  vendor_id : Nat
  product_id : Nat
deriving DecidableEq, Repr

/-- The connected USB bus at one instant: the devices `rusb::devices()`
enumerates, in enumeration order. -/
structure UsbBus where
  devices : List DeviceDescriptor
deriving DecidableEq, Repr

/-- Search for the first device with the given ids, keeping its bus index:
the recursion behind `open_device_with_vid_pid`. -/
def open_device_loop (v p : Nat) : List DeviceDescriptor → Nat → Option Nat
  | [], _ => none
  | d :: rest, i =>
    if d.vendor_id == v && d.product_id == p then some i
    else open_device_loop v p rest (i + 1)

/-- rusb's `open_device_with_vid_pid`, per its documentation: opens the
first device on the bus with the given vendor and product id, or none.  A
device handle is modelled as the bus index of the opened device, so that
which physical device was opened stays observable. -/
def open_device_with_vid_pid (bus : UsbBus) (v p : Nat) : Option Nat :=
  open_device_loop v p bus.devices 0

/-- `vendor_map` of src/utils.rs lines 78-83.  The Rust value is a HashMap
whose iteration order is unspecified; it is embedded as the list of its
entries, and every use below (key lookup, membership of a pair in some
entry) is independent of entry order. -/
def vendor_map : List (String × List (Nat × Nat)) :=
  [("stm32", [(0x0483, 0xdf11)]),
   ("gd32vf103", [(0x28e9, 0x0189)])]

/-- Whether some entry of `vendor_map` lists the pair: the test
`vendor.1.contains(&(d.vendor_id(), d.product_id()))` succeeds for some
entry (utils.rs line 126). -/
def table_contains (pair : Nat × Nat) : Bool :=
  vendor_map.any fun e => e.2.contains pair

/-- The chip branch's `for (v, p) in products` loop (utils.rs lines
101-106): open the first candidate pair that succeeds, in table order. -/
def open_first_product (bus : UsbBus) : List (Nat × Nat) → Option Nat
  | [] => none
  | (v, p) :: rest =>
    match open_device_with_vid_pid bus v p with
    | some d => some d
    | none => open_first_product bus rest

/-- One round of the outer device loop of the "any known pair" branch
(utils.rs lines 124-133) for the device `d`: the inner `for vendor in
vendor_map()` loop sets `device` and breaks as soon as some entry lists the
pair and the open succeeds; when the open fails it is retried identically
for every further entry listing the pair, so the HashMap's entry order
cannot change the result, and `device` is left as it was. -/
def any_pair_step (bus : UsbBus) (device : Option Nat)
    (d : DeviceDescriptor) : Option Nat :=
  if table_contains (d.vendor_id, d.product_id) then
    match open_device_with_vid_pid bus d.vendor_id d.product_id with
    | some h => some h
    | none => device
  else device

/-- The "any known pair" branch (utils.rs lines 110-135).  The outer loop
runs over every enumerated device; the `break` inside only leaves the inner
loop over `vendor_map`, so a later matching device overwrites `device`. -/
def any_known_pair_probe (bus : UsbBus) : Option Nat :=
  bus.devices.foldl (any_pair_step bus) none

/-- The fields of `Opt` (src/main.rs lines 156-192) that `find_device`
reads, in declaration order: `pid`, `vid`, `chip`, `delay`, `retries`. -/
structure Opt where
  pid : Option Nat
  vid : Option Nat
  chip : Option String
  delay : Nat
  retries : Nat
deriving DecidableEq, Repr

/-- One execution of the closure passed to `retry` (utils.rs lines 89-137),
against the bus as it is during that attempt: an explicit pair when both
`opt.vid` and `opt.pid` are present; otherwise the chip branch when
`opt.chip` is present (an unknown name leaves the default
`Err("no device found")`); otherwise the any-known-pair scan. -/
def find_device_attempt (opt : Opt) (bus : UsbBus) : Option Nat :=
  match opt.vid, opt.pid with
  | some v, some p => open_device_with_vid_pid bus v p
  | _, _ =>
    match opt.chip with
    | some c =>
      match vendor_map.lookup c with
      | some products => open_first_product bus products
      | none => none
    | none => any_known_pair_probe bus

/-- The retry crate's `retry(Fixed::from_millis(delay).take(retries), op)`
per the crate's documentation: run the operation; on failure, if the delay
iterator yields another item, sleep for it and run the operation again,
and give up when the iterator is exhausted.  `Fixed...take(retries)` yields
exactly `retries` delays.  `delays` is how many items the iterator still
yields, `attempt` numbers the runs so a bus that changes between attempts
can be modelled, and the result carries (outcome, number of runs of the
operation, number of sleeps). -/
def retry_run (op : Nat → Option Nat) (attempt : Nat) :
    Nat → Option Nat × Nat × Nat
  | 0 =>
    match op attempt with
    | some d => (some d, 1, 0)
    | none => (none, 1, 0)
  | delays + 1 =>
    match op attempt with
    | some d => (some d, 1, 0)
    | none =>
      let r := retry_run op (attempt + 1) delays
      (r.1, r.2.1 + 1, r.2.2 + 1)

/-- `find_device` of src/utils.rs lines 85-139: the retry loop around
`find_device_attempt`, with `result.ok()` collapsing the give-up error into
absence.  `world i` is the bus during attempt number `i`. -/
def find_device (opt : Opt) (world : Nat → UsbBus) : Option Nat :=
  (retry_run (fun i => find_device_attempt opt (world i)) 0 opt.retries).1

/-- How many times `find_device` runs the probing closure. -/
def find_device_attempts (opt : Opt) (world : Nat → UsbBus) : Nat :=
  (retry_run (fun i => find_device_attempt opt (world i)) 0 opt.retries).2.1

/-- How many times `find_device` sleeps for `opt.delay` between probes. -/
def find_device_waits (opt : Opt) (world : Nat → UsbBus) : Nat :=
  (retry_run (fun i => find_device_attempt opt (world i)) 0 opt.retries).2.2

/-! ## flash_bin and main's outcome classification -/

/-- What the external DFU engine answers during one `flash_bin` call (spec
section 6 treats dfu-libusb as an opaque protocol engine): the result of
`DfuLibusb::open` and the result of `download_from_slice`. -/
structure DfuSession where
  open_result : Except DfuError Unit
  download_result : Except DfuError Unit

/-- `flash_bin` of src/utils.rs lines 64-76: an open failure or a download
failure is wrapped by `UtilError::Dfu` unchanged; otherwise `Ok(())`. -/
def flash_bin (session : DfuSession) : Except UtilError Unit :=
  match session.open_result with
  | .error e => .error (.Dfu e)
  | .ok _ =>
    match session.download_result with
    | .error e => .error (.Dfu e)
    | .ok _ => .ok ()

/-- The spec's FlashOutcome: how main classifies one flashing attempt. -/
inductive FlashOutcome where
  | Success
  | BenignAbsence
  | Failure (cause : UtilError)
deriving DecidableEq, Repr

/-- The match on `flash_bin`'s result in src/main.rs lines 119-125:
`Err(Dfu(LibUsb(NoDevice)))` is swallowed, any other `Err(e)` is printed as
an error, `Ok` needs nothing; in all three cases execution falls through to
the "Finished" message (the classification is total, nothing crashes). -/
def classify_flash (r : Except UtilError Unit) : FlashOutcome :=
  match r with
  | .error (.Dfu (.LibUsb .NoDevice)) => .BenignAbsence
  | .error e => .Failure e
  | .ok _ => .Success

/-! ## Helper lemmas -/

/-- Once the enumeration index is positive, the loop never changes
`start_address` again. -/
theorem elf_to_bin_loop_start_stable (buffer : List Nat)
    (phs : List ProgramHeader) (i s last : Nat) (data : List Nat) :
    (elf_to_bin_loop buffer phs (i + 1) s last data).1 = s := by
  induction phs generalizing i s last data with
  | nil => rfl
  | cons ph rest ih =>
    simp only [elf_to_bin_loop, if_neg (Nat.succ_ne_zero i)]
    exact ih (i + 1) s (ph.p_paddr + ph.p_filesz) _

/-- A never-succeeding operation is run once per remaining delay plus once,
with one sleep per delay, and the retry gives up. -/
theorem retry_run_of_none (op : Nat → Option Nat) (h : ∀ i, op i = none) :
    ∀ delays attempt, retry_run op attempt delays = (none, delays + 1, delays)
  | 0, a => by simp [retry_run, h a]
  | n + 1, a => by
    simp [retry_run, h a, retry_run_of_none op h n (a + 1)]

/-- The operation is never run more often than the delays plus one. -/
theorem retry_run_attempts_le (op : Nat → Option Nat) :
    ∀ delays attempt, (retry_run op attempt delays).2.1 ≤ delays + 1
  | 0, a => by
    cases hop : op a <;> simp [retry_run, hop]
  | n + 1, a => by
    cases hop : op a with
    | none =>
      have := retry_run_attempts_le op n (a + 1)
      simp only [retry_run, hop]
      omega
    | some d => simp [retry_run, hop]

/-- A first-attempt success ends the retry at once: one run, no sleep. -/
theorem retry_run_first_success (op : Nat → Option Nat) (d : Nat)
    (h : op 0 = some d) (delays : Nat) :
    retry_run op 0 delays = (some d, 1, 0) := by
  cases delays <;> simp [retry_run, h]

/-- Searching a bus segment whose devices all miss the wanted pair walks
past it, and the first hit keeps its absolute index. -/
theorem open_device_loop_append (v p : Nat) (l1 l2 : List DeviceDescriptor)
    (d : DeviceDescriptor) (k : Nat)
    (hd : (d.vendor_id == v && d.product_id == p) = true)
    (h1 : ∀ x ∈ l1, (x.vendor_id == v && x.product_id == p) = false) :
    open_device_loop v p (l1 ++ d :: l2) k = some (k + l1.length) := by
  induction l1 generalizing k with
  | nil => simp [open_device_loop, hd]
  | cons a rest ih =>
    rw [List.cons_append]
    simp only [open_device_loop]
    rw [if_neg (by simp [h1 a (List.mem_cons_self a rest)])]
    rw [ih (k + 1) fun x hx => h1 x (List.mem_cons_of_mem a hx)]
    congr 1
    simp
    omega

/-- Searching a bus that holds at least one device with the wanted pair
finds something. -/
theorem open_device_loop_isSome (v p : Nat) (l : List DeviceDescriptor)
    (k : Nat) (x : DeviceDescriptor) (hx : x ∈ l)
    (hmatch : (x.vendor_id == v && x.product_id == p) = true) :
    (open_device_loop v p l k).isSome = true := by
  induction l generalizing k with
  | nil => cases hx
  | cons a rest ih =>
    simp only [open_device_loop]
    by_cases ha : (a.vendor_id == v && a.product_id == p) = true
    · simp [ha]
    · rw [if_neg ha]
      rcases List.mem_cons.mp hx with rfl | hx'
      · exact absurd hmatch ha
      · exact ih (k + 1) hx'

/-- Devices whose pair no table entry lists leave the any-known-pair
accumulator untouched. -/
theorem any_pair_fold_skip (bus : UsbBus) (l : List DeviceDescriptor)
    (acc : Option Nat)
    (h : ∀ x ∈ l, table_contains (x.vendor_id, x.product_id) = false) :
    List.foldl (any_pair_step bus) acc l = acc := by
  induction l generalizing acc with
  | nil => rfl
  | cons a rest ih =>
    rw [List.foldl_cons]
    rw [show any_pair_step bus acc a = acc from by
      simp [any_pair_step, h a (List.mem_cons_self a rest)]]
    exact ih acc fun x hx => h x (List.mem_cons_of_mem a hx)

/-- The instrumented gap check succeeds along any suffix whose addresses
chain upward, provided the incoming `last_address` is below the suffix's
first physical address (or the index is still 0). -/
theorem gapsOk_of_chain (phs : List ProgramHeader) (i last : Nat)
    (hchain : List.Chain' (fun a b => a.p_paddr + a.p_filesz ≤ b.p_paddr) phs)
    (hhead : ∀ ph, phs.head? = some ph → i = 0 ∨ last ≤ ph.p_paddr) :
    gapsOk phs i last = true := by
  induction phs generalizing i last with
  | nil => rfl
  | cons ph rest ih =>
    rw [gapsOk, Bool.and_eq_true]
    constructor
    · rcases hhead ph rfl with h0 | hle
      · subst h0
        simp
      · simp [hle]
    · rcases List.chain'_cons'.mp hchain with ⟨hstep, htail⟩
      refine ih (i + 1) (ph.p_paddr + ph.p_filesz) htail ?_
      intro ph' hh'
      exact Or.inr (hstep ph' hh')

/-! ## The claims about elf_to_bin -/

/-- Claim C7: for every executable image in which no segment satisfies the
qualifying predicate (loadable, non-empty, post-header offset, readable),
`elf_to_bin` returns an empty byte sequence and start address 0. -/
theorem elf_to_bin_no_qualifying (binary : Elf) (buffer : List Nat)
    (h : includedSegments binary = []) :
    elf_to_bin binary buffer = .ok ([], 0) := by
  simp only [elf_to_bin, h, elf_to_bin_loop]
  norm_num

/-- Claim C7, witness: one loadable readable segment whose file offset 0
lies inside the 0x34-byte ELF header, so nothing qualifies. -/
theorem elf_to_bin_no_qualifying_witness :
    elf_to_bin ⟨0x34, [⟨1, 0, 4, 0x100, 4⟩]⟩ [9, 9, 9, 9] = .ok ([], 0) :=
  elf_to_bin_no_qualifying ⟨0x34, [⟨1, 0, 4, 0x100, 4⟩]⟩ [9, 9, 9, 9]
    (by decide)

/-- Claim C2: a program header is among the segments `elf_to_bin` processes
exactly when it is loadable, non-empty, at or past the header size and
readable; and the whole result (byte content and gap computation alike) is
unchanged when the non-qualifying headers are dropped, so they contribute
nothing to the output. -/
theorem elf_to_bin_included_iff (e_ehsize : Nat) (phs : List ProgramHeader)
    (buffer : List Nat) (ph : ProgramHeader) (hmem : ph ∈ phs) :
    (ph ∈ includedSegments ⟨e_ehsize, phs⟩ ↔ qualifies e_ehsize ph = true) ∧
    elf_to_bin ⟨e_ehsize, phs⟩ buffer =
      elf_to_bin ⟨e_ehsize, includedSegments ⟨e_ehsize, phs⟩⟩ buffer := by
  constructor
  · constructor
    · intro hin
      exact List.of_mem_filter hin
    · intro hq
      exact List.mem_filter.mpr ⟨hmem, hq⟩
  · have hself : includedSegments ⟨e_ehsize, includedSegments ⟨e_ehsize, phs⟩⟩ =
        includedSegments ⟨e_ehsize, phs⟩ := by
      apply List.filter_eq_self.mpr
      intro a ha
      exact List.of_mem_filter ha
    simp only [elf_to_bin, hself]

/-- Claim C2, witness: a table mixing one qualifying segment with a
non-loadable one, checked at the qualifying segment. -/
theorem elf_to_bin_included_iff_witness :
    (⟨1, 0x34, 2, 0x100, 4⟩ ∈
        includedSegments ⟨0x34, [⟨1, 0x34, 2, 0x100, 4⟩, ⟨2, 0x36, 2, 0x200, 4⟩]⟩ ↔
      qualifies 0x34 ⟨1, 0x34, 2, 0x100, 4⟩ = true) ∧
    elf_to_bin ⟨0x34, [⟨1, 0x34, 2, 0x100, 4⟩, ⟨2, 0x36, 2, 0x200, 4⟩]⟩ [5, 6] =
      elf_to_bin
        ⟨0x34, includedSegments ⟨0x34, [⟨1, 0x34, 2, 0x100, 4⟩, ⟨2, 0x36, 2, 0x200, 4⟩]⟩⟩
        [5, 6] :=
  elf_to_bin_included_iff 0x34 [⟨1, 0x34, 2, 0x100, 4⟩, ⟨2, 0x36, 2, 0x200, 4⟩]
    [5, 6] ⟨1, 0x34, 2, 0x100, 4⟩ (by decide)

/-- Claim C8: when the first qualifying segment's physical address does not
fit in 32 bits, `elf_to_bin` fails with the malformed-input (`Elf`) error
kind carrying `u32::try_from`'s message; when it fits, the call succeeds and
the returned start address is exactly that physical address. -/
theorem elf_to_bin_start_address (binary : Elf) (buffer : List Nat)
    (ph : ProgramHeader) (rest : List ProgramHeader)
    (h : includedSegments binary = ph :: rest) :
    (2 ^ 32 ≤ ph.p_paddr →
      elf_to_bin binary buffer = .error (.Elf (.Malformed overflow_msg))) ∧
    (ph.p_paddr < 2 ^ 32 →
      elf_to_bin binary buffer = .ok (elf_bin_data binary buffer, ph.p_paddr)) := by
  have hs : (elf_to_bin_loop buffer (includedSegments binary) 0 0 0 []).1 =
      ph.p_paddr := by
    rw [h]
    have h0 : elf_to_bin_loop buffer (ph :: rest) 0 0 0 [] =
        elf_to_bin_loop buffer rest 1 ph.p_paddr (ph.p_paddr + ph.p_filesz)
          ([] ++ segmentBytes buffer ph) := by
      simp [elf_to_bin_loop]
    rw [h0]
    exact elf_to_bin_loop_start_stable buffer rest 0 _ _ _
  constructor
  · intro hge
    simp only [elf_to_bin]
    rw [hs, if_neg (by omega)]
  · intro hlt
    simp only [elf_to_bin]
    rw [hs, if_pos hlt]
    rfl

/-- Claim C8, witness: a first qualifying segment at physical address
`2 ^ 32` fails with the malformed-input error (the in-range side holds
vacuously there). -/
theorem elf_to_bin_start_address_witness :
    (2 ^ 32 ≤ 4294967296 →
      elf_to_bin ⟨0x34, [⟨1, 0x34, 2, 4294967296, 4⟩]⟩ [5, 6] =
        .error (.Elf (.Malformed overflow_msg))) ∧
    ((4294967296 : Nat) < 2 ^ 32 →
      elf_to_bin ⟨0x34, [⟨1, 0x34, 2, 4294967296, 4⟩]⟩ [5, 6] =
        .ok (elf_bin_data ⟨0x34, [⟨1, 0x34, 2, 4294967296, 4⟩]⟩ [5, 6],
          4294967296)) :=
  elf_to_bin_start_address ⟨0x34, [⟨1, 0x34, 2, 4294967296, 4⟩]⟩ [5, 6]
    ⟨1, 0x34, 2, 4294967296, 4⟩ [] (by decide)

/-- Claim C10: when the qualifying segments appear in non-decreasing
physical-address order — each one's physical address at least the previous
one's physical address plus its file size — every gap subtraction
`ph.p_paddr - last_address` of the loop starts from
`last_address ≤ ph.p_paddr`, so it never underflows u64 and the zero-fill
length is the true address gap. -/
theorem elf_gap_no_underflow (binary : Elf)
    (h : List.Chain' (fun a b => a.p_paddr + a.p_filesz ≤ b.p_paddr)
      (includedSegments binary)) :
    gapsOk (includedSegments binary) 0 0 = true :=
  gapsOk_of_chain (includedSegments binary) 0 0 h fun _ _ => Or.inl rfl

/-- Claim C10, witness: two qualifying segments in increasing address
order. -/
theorem elf_gap_no_underflow_witness :
    gapsOk (includedSegments ⟨0x34, [⟨1, 0x34, 4, 0x100, 4⟩, ⟨1, 0x38, 4, 0x110, 4⟩]⟩)
      0 0 = true :=
  elf_gap_no_underflow ⟨0x34, [⟨1, 0x34, 4, 0x100, 4⟩, ⟨1, 0x38, 4, 0x110, 4⟩]⟩
    (by
      rw [show includedSegments
          ⟨0x34, [⟨1, 0x34, 4, 0x100, 4⟩, ⟨1, 0x38, 4, 0x110, 4⟩]⟩ =
          [⟨1, 0x34, 4, 0x100, 4⟩, ⟨1, 0x38, 4, 0x110, 4⟩] from by decide]
      simp [List.chain'_cons])

/-- Claim C1: for an image whose qualifying segments are exactly two, the
first at address `A` with `N1` file bytes and the second at `A + N1 + G`
with `N2` file bytes, `elf_to_bin` returns the first segment's bytes, then
`G` zero bytes, then the second segment's bytes — a buffer of length
`N1 + G + N2` whose bytes `[N1, N1 + G)` are all zero — and when `G = 0` no
padding is inserted between them. -/
theorem elf_to_bin_two_segments (e_ehsize : Nat) (phs : List ProgramHeader)
    (buffer : List Nat) (ph1 ph2 : ProgramHeader) (A N1 N2 G : Nat)
    (hF : includedSegments ⟨e_ehsize, phs⟩ = [ph1, ph2])
    (hA : ph1.p_paddr = A) (hN1 : ph1.p_filesz = N1) (hN2 : ph2.p_filesz = N2)
    (haddr : ph2.p_paddr = A + N1 + G)
    (hr1 : ph1.p_offset + N1 ≤ buffer.length)
    (hr2 : ph2.p_offset + N2 ≤ buffer.length)
    (hA32 : A < 2 ^ 32) :
    elf_to_bin ⟨e_ehsize, phs⟩ buffer =
      .ok (segmentBytes buffer ph1 ++ List.replicate G 0 ++ segmentBytes buffer ph2,
        A) ∧
    (segmentBytes buffer ph1 ++ List.replicate G 0 ++ segmentBytes buffer ph2).length
      = N1 + G + N2 ∧
    ((segmentBytes buffer ph1 ++ List.replicate G 0 ++
      segmentBytes buffer ph2).drop N1).take G = List.replicate G 0 ∧
    (segmentBytes buffer ph1 ++ List.replicate G 0 ++
      segmentBytes buffer ph2).take N1 = segmentBytes buffer ph1 ∧
    (segmentBytes buffer ph1 ++ List.replicate G 0 ++
      segmentBytes buffer ph2).drop (N1 + G) = segmentBytes buffer ph2 ∧
    (G = 0 → elf_to_bin ⟨e_ehsize, phs⟩ buffer =
      .ok (segmentBytes buffer ph1 ++ segmentBytes buffer ph2, A)) := by
  have hs1 : (segmentBytes buffer ph1).length = N1 := by
    simp only [segmentBytes, hN1, List.length_take, List.length_drop]
    omega
  have hs2 : (segmentBytes buffer ph2).length = N2 := by
    simp only [segmentBytes, hN2, List.length_take, List.length_drop]
    omega
  have hgap : ph2.p_paddr - (ph1.p_paddr + ph1.p_filesz) = G := by omega
  have hloop : elf_to_bin_loop buffer [ph1, ph2] 0 0 0 [] =
      (ph1.p_paddr, ph2.p_paddr + ph2.p_filesz,
        segmentBytes buffer ph1 ++ List.replicate G 0 ++
          segmentBytes buffer ph2) := by
    simp [elf_to_bin_loop, hgap]
  have hbin : elf_to_bin ⟨e_ehsize, phs⟩ buffer =
      .ok (segmentBytes buffer ph1 ++ List.replicate G 0 ++
        segmentBytes buffer ph2, A) := by
    simp only [elf_to_bin, hF, hloop, hA]
    rw [if_pos hA32]
  refine ⟨hbin, ?_, ?_, ?_, ?_, ?_⟩
  · simp only [List.length_append, List.length_replicate, hs1, hs2]
  · rw [List.append_assoc, List.drop_left' hs1,
      List.take_left' (List.length_replicate G 0)]
  · rw [List.append_assoc, List.take_left' hs1]
  · rw [List.drop_left' (by
      simp only [List.length_append, List.length_replicate, hs1])]
  · intro hG
    subst hG
    rw [hbin]
    simp

/-- Claim C1, witness: the spec's end-to-end shape — two 4-byte segments at
0x100 and 0x110 with header size 0x34, a 12-byte gap — and the contiguous
case is vacuous at gap 12. -/
theorem elf_to_bin_two_segments_witness :
    elf_to_bin ⟨0x34, [⟨1, 0x34, 4, 0x100, 4⟩, ⟨1, 0x38, 4, 0x110, 4⟩]⟩
        (List.range 60) =
      .ok (segmentBytes (List.range 60) ⟨1, 0x34, 4, 0x100, 4⟩ ++
        List.replicate 12 0 ++ segmentBytes (List.range 60) ⟨1, 0x38, 4, 0x110, 4⟩,
        0x100) ∧
    (segmentBytes (List.range 60) ⟨1, 0x34, 4, 0x100, 4⟩ ++ List.replicate 12 0 ++
      segmentBytes (List.range 60) ⟨1, 0x38, 4, 0x110, 4⟩).length = 4 + 12 + 4 ∧
    ((segmentBytes (List.range 60) ⟨1, 0x34, 4, 0x100, 4⟩ ++ List.replicate 12 0 ++
      segmentBytes (List.range 60) ⟨1, 0x38, 4, 0x110, 4⟩).drop 4).take 12 =
      List.replicate 12 0 ∧
    (segmentBytes (List.range 60) ⟨1, 0x34, 4, 0x100, 4⟩ ++ List.replicate 12 0 ++
      segmentBytes (List.range 60) ⟨1, 0x38, 4, 0x110, 4⟩).take 4 =
      segmentBytes (List.range 60) ⟨1, 0x34, 4, 0x100, 4⟩ ∧
    (segmentBytes (List.range 60) ⟨1, 0x34, 4, 0x100, 4⟩ ++ List.replicate 12 0 ++
      segmentBytes (List.range 60) ⟨1, 0x38, 4, 0x110, 4⟩).drop (4 + 12) =
      segmentBytes (List.range 60) ⟨1, 0x38, 4, 0x110, 4⟩ ∧
    (12 = 0 → elf_to_bin ⟨0x34, [⟨1, 0x34, 4, 0x100, 4⟩, ⟨1, 0x38, 4, 0x110, 4⟩]⟩
        (List.range 60) =
      .ok (segmentBytes (List.range 60) ⟨1, 0x34, 4, 0x100, 4⟩ ++
        segmentBytes (List.range 60) ⟨1, 0x38, 4, 0x110, 4⟩, 0x100)) :=
  elf_to_bin_two_segments 0x34 [⟨1, 0x34, 4, 0x100, 4⟩, ⟨1, 0x38, 4, 0x110, 4⟩]
    (List.range 60) ⟨1, 0x34, 4, 0x100, 4⟩ ⟨1, 0x38, 4, 0x110, 4⟩ 0x100 4 4 12
    (by decide) rfl rfl rfl (by decide) (by decide) (by decide) (by decide)

/-! ## The claims about find_device -/

/-- Claim C3, counterexample: with `retries = 3` and an explicit pair that
never matches, `find_device` performs 4 probe attempts and 3 waits, not the
3 attempts and 2 waits the claim states — the retry iterator's 3 items are
the delays, each one bought by a further attempt after the initial one. -/
theorem find_device_three_retries_counterexample :
    find_device ⟨some 1, some 1, none, 10, 3⟩ (fun _ => ⟨[]⟩) = none ∧
    find_device_attempts ⟨some 1, some 1, none, 10, 3⟩ (fun _ => ⟨[]⟩) = 4 ∧
    find_device_waits ⟨some 1, some 1, none, 10, 3⟩ (fun _ => ⟨[]⟩) = 3 ∧
    find_device_attempts ⟨some 1, some 1, none, 10, 3⟩ (fun _ => ⟨[]⟩) ≠ 3 := by
  decide

/-- Claim C3 as amended: when no attempt ever matches, `find_device` returns
absence after exactly `retries + 1` probe attempts and exactly `retries`
waits (no wait before the first attempt or after the last); and for every
search whatsoever the number of probe attempts never exceeds
`retries + 1`. -/
theorem find_device_retry_budget (opt : Opt) (world : Nat → UsbBus)
    (opt' : Opt) (world' : Nat → UsbBus)
    (hnever : ∀ i, find_device_attempt opt (world i) = none) :
    find_device opt world = none ∧
    find_device_attempts opt world = opt.retries + 1 ∧
    find_device_waits opt world = opt.retries ∧
    find_device_attempts opt' world' ≤ opt'.retries + 1 := by
  have h := retry_run_of_none (fun i => find_device_attempt opt (world i))
    hnever opt.retries 0
  refine ⟨?_, ?_, ?_, ?_⟩
  · simp [find_device, h]
  · simp [find_device_attempts, h]
  · simp [find_device_waits, h]
  · exact retry_run_attempts_le _ opt'.retries 0

/-- Claim C3 as amended, witness: a never-matching pair with
`retries = 5`. -/
theorem find_device_retry_budget_witness :
    find_device ⟨some 2, some 2, none, 10, 5⟩ (fun _ => ⟨[]⟩) = none ∧
    find_device_attempts ⟨some 2, some 2, none, 10, 5⟩ (fun _ => ⟨[]⟩) = 6 ∧
    find_device_waits ⟨some 2, some 2, none, 10, 5⟩ (fun _ => ⟨[]⟩) = 5 ∧
    find_device_attempts ⟨some 2, some 2, none, 10, 5⟩ (fun _ => ⟨[]⟩) ≤ 6 :=
  find_device_retry_budget ⟨some 2, some 2, none, 10, 5⟩ (fun _ => ⟨[]⟩)
    ⟨some 2, some 2, none, 10, 5⟩ (fun _ => ⟨[]⟩) (fun _ => rfl)

/-- Claim C4, counterexample: two connected devices whose pairs are both in
the table.  The first matching device in enumeration order is index 0, but
`find_device` under the "any known pair" criteria returns index 1: the
`break` only leaves the inner table loop, so the later match overwrote the
earlier one. -/
theorem find_device_first_match_counterexample :
    table_contains (0x0483, 0xdf11) = true ∧
    table_contains (0x28e9, 0x0189) = true ∧
    open_device_with_vid_pid ⟨[⟨0x0483, 0xdf11⟩, ⟨0x28e9, 0x0189⟩]⟩
      0x0483 0xdf11 = some 0 ∧
    find_device ⟨none, none, none, 10, 3⟩
      (fun _ => ⟨[⟨0x0483, 0xdf11⟩, ⟨0x28e9, 0x0189⟩]⟩) = some 1 ∧
    find_device ⟨none, none, none, 10, 3⟩
      (fun _ => ⟨[⟨0x0483, 0xdf11⟩, ⟨0x28e9, 0x0189⟩]⟩) ≠ some 0 := by
  decide

/-- Claim C4 as amended: decompose the bus as `l1 ++ d :: l2` where `d` is
the last device whose pair the table lists (`l2` holds no match, `l1` is
arbitrary, so any number of earlier matches is allowed).  The probe succeeds
on the first attempt and returns exactly the handle obtained by opening
`d`'s pair — per rusb's open semantics, the first bus device carrying that
pair — so with several matching devices the last match in enumeration order
determines the result; and when additionally no device of `l1` matches
(`d` is the only match), the returned handle is `d`'s own bus index
`l1.length`. -/
theorem find_device_last_match (opt : Opt) (world : Nat → UsbBus)
    (bus : UsbBus) (l1 l2 : List DeviceDescriptor) (d : DeviceDescriptor)
    (hvid : opt.vid = none) (hchip : opt.chip = none)
    (hbus : bus.devices = l1 ++ d :: l2)
    (hworld : world 0 = bus)
    (hd : table_contains (d.vendor_id, d.product_id) = true)
    (hl2 : ∀ x ∈ l2, table_contains (x.vendor_id, x.product_id) = false) :
    find_device opt world =
      open_device_with_vid_pid bus d.vendor_id d.product_id ∧
    (open_device_with_vid_pid bus d.vendor_id d.product_id).isSome = true ∧
    find_device_attempts opt world = 1 ∧
    ((∀ x ∈ l1, table_contains (x.vendor_id, x.product_id) = false) →
      find_device opt world = some l1.length) := by
  have hsome : (open_device_with_vid_pid bus d.vendor_id d.product_id).isSome
      = true := by
    rw [open_device_with_vid_pid, hbus]
    exact open_device_loop_isSome d.vendor_id d.product_id (l1 ++ d :: l2) 0 d
      (by simp) (by simp)
  obtain ⟨h, hopen⟩ := Option.isSome_iff_exists.mp hsome
  have hprobe : any_known_pair_probe bus = some h := by
    rw [any_known_pair_probe, hbus, List.foldl_append, List.foldl_cons,
      show any_pair_step bus (List.foldl (any_pair_step bus) none l1) d =
          some h from by simp [any_pair_step, hd, hopen]]
    exact any_pair_fold_skip bus l2 (some h) hl2
  have hattempt : find_device_attempt opt (world 0) = some h := by
    rw [hworld]
    rcases opt with ⟨pid, vid, chip, delay, retries⟩
    cases hvid
    cases hchip
    cases pid <;> simpa [find_device_attempt] using hprobe
  have hrun := retry_run_first_success
    (fun i => find_device_attempt opt (world i)) h hattempt opt.retries
  have hfind : find_device opt world = some h := by simp [find_device, hrun]
  refine ⟨by rw [hfind, hopen], hsome,
    by simp [find_device_attempts, hrun], ?_⟩
  intro hl1
  have hopenlen : open_device_with_vid_pid bus d.vendor_id d.product_id =
      some l1.length := by
    rw [open_device_with_vid_pid, hbus]
    have h0 := open_device_loop_append d.vendor_id d.product_id l1 l2 d 0
      (by simp) ?_
    · simpa using h0
    · intro x hx
      by_contra hmatch
      rw [Bool.not_eq_false, Bool.and_eq_true, beq_iff_eq, beq_iff_eq] at hmatch
      have : table_contains (x.vendor_id, x.product_id) =
          table_contains (d.vendor_id, d.product_id) := by
        rw [hmatch.1, hmatch.2]
      rw [hl1 x hx, hd] at this
      exact Bool.false_ne_true this
  rw [hfind, ← hopen, hopenlen]

/-- Claim C4 as amended, witness: two connected devices that both match the
table (the stm32 pair at bus index 0, the gd32 pair at index 1).  The last
match — the gd32 device — determines the result: the handle is the one
opened for its pair, bus index 1, on the first attempt; the only-match
conjunct holds vacuously here since the earlier device also matches. -/
theorem find_device_last_match_witness :
    find_device ⟨none, none, none, 10, 3⟩
        (fun _ => ⟨[⟨0x0483, 0xdf11⟩, ⟨0x28e9, 0x0189⟩]⟩) =
      open_device_with_vid_pid ⟨[⟨0x0483, 0xdf11⟩, ⟨0x28e9, 0x0189⟩]⟩
        0x28e9 0x0189 ∧
    (open_device_with_vid_pid ⟨[⟨0x0483, 0xdf11⟩, ⟨0x28e9, 0x0189⟩]⟩
      0x28e9 0x0189).isSome = true ∧
    find_device_attempts ⟨none, none, none, 10, 3⟩
      (fun _ => ⟨[⟨0x0483, 0xdf11⟩, ⟨0x28e9, 0x0189⟩]⟩) = 1 ∧
    ((∀ x ∈ [(⟨0x0483, 0xdf11⟩ : DeviceDescriptor)],
        table_contains (x.vendor_id, x.product_id) = false) →
      find_device ⟨none, none, none, 10, 3⟩
        (fun _ => ⟨[⟨0x0483, 0xdf11⟩, ⟨0x28e9, 0x0189⟩]⟩) = some 1) :=
  find_device_last_match ⟨none, none, none, 10, 3⟩
    (fun _ => ⟨[⟨0x0483, 0xdf11⟩, ⟨0x28e9, 0x0189⟩]⟩)
    ⟨[⟨0x0483, 0xdf11⟩, ⟨0x28e9, 0x0189⟩]⟩ [⟨0x0483, 0xdf11⟩] []
    ⟨0x28e9, 0x0189⟩ rfl rfl rfl rfl (by decide) (by decide)

/-- Claim C6: a chip name absent from `vendor_map` makes every probe attempt
find nothing — on any bus at all — so `find_device` never raises a hard
error and simply returns absence after the full retry budget, exactly as if
no device ever matched. -/
theorem find_device_unknown_chip (opt : Opt) (world : Nat → UsbBus)
    (bus : UsbBus) (c : String)
    (hvid : opt.vid = none) (hchip : opt.chip = some c)
    (hlook : vendor_map.lookup c = none) :
    find_device_attempt opt bus = none ∧
    find_device opt world = none ∧
    find_device_attempts opt world = opt.retries + 1 ∧
    find_device_waits opt world = opt.retries := by
  have hnone : ∀ b : UsbBus, find_device_attempt opt b = none := by
    intro b
    rcases opt with ⟨pid, vid, chip, delay, retries⟩
    cases hvid
    cases hchip
    cases pid <;> simp [find_device_attempt, hlook]
  have h := retry_run_of_none (fun i => find_device_attempt opt (world i))
    (fun i => hnone (world i)) opt.retries 0
  exact ⟨hnone bus, by simp [find_device, h], by simp [find_device_attempts, h],
    by simp [find_device_waits, h]⟩

/-- Claim C6, witness: the unknown name "esp32" with `retries = 2`, probed
against a bus that does hold a table-listed device — the chip branch still
finds nothing. -/
theorem find_device_unknown_chip_witness :
    find_device_attempt ⟨none, none, some "esp32", 10, 2⟩
      ⟨[⟨0x0483, 0xdf11⟩]⟩ = none ∧
    find_device ⟨none, none, some "esp32", 10, 2⟩
      (fun _ => ⟨[⟨0x0483, 0xdf11⟩]⟩) = none ∧
    find_device_attempts ⟨none, none, some "esp32", 10, 2⟩
      (fun _ => ⟨[⟨0x0483, 0xdf11⟩]⟩) = 3 ∧
    find_device_waits ⟨none, none, some "esp32", 10, 2⟩
      (fun _ => ⟨[⟨0x0483, 0xdf11⟩]⟩) = 2 :=
  find_device_unknown_chip ⟨none, none, some "esp32", 10, 2⟩
    (fun _ => ⟨[⟨0x0483, 0xdf11⟩]⟩) ⟨[⟨0x0483, 0xdf11⟩]⟩ "esp32" rfl rfl
    (by decide)

/-- Claim C9: the criteria dispatch of `find_device` — an explicit pair is
in force only when both `vid` and `pid` are present, and then the chip name
is never consulted, whatever it is; with exactly one of the two supplied,
the supplied one is silently ignored and the attempt behaves exactly as when
neither is supplied (chip criteria if a name is given, else any known
pair). -/
theorem find_device_criteria_dispatch (v p : Nat) (c : Option String)
    (delay retries : Nat) (bus : UsbBus) :
    find_device_attempt ⟨some p, some v, c, delay, retries⟩ bus =
      open_device_with_vid_pid bus v p ∧
    find_device_attempt ⟨none, some v, c, delay, retries⟩ bus =
      find_device_attempt ⟨none, none, c, delay, retries⟩ bus ∧
    find_device_attempt ⟨some p, none, c, delay, retries⟩ bus =
      find_device_attempt ⟨none, none, c, delay, retries⟩ bus :=
  ⟨rfl, rfl, rfl⟩

/-! ## The claim about flash outcome classification -/

/-- Claim C5: a download failing with the transport's `NoDevice` is
classified as benign absence (success-equivalent, nothing reported); any
other download failure is wrapped unchanged by `UtilError::Dfu` and
classified as a `Failure` carrying that cause, while `classify_flash` stays
total — `main` falls through to the "Finished" message in every case rather
than crashing — and a clean download is `Success`. -/
theorem flash_outcome_classification (e : DfuError)
    (hne : e ≠ .LibUsb .NoDevice) :
    classify_flash (flash_bin ⟨.ok (), .error (.LibUsb .NoDevice)⟩) =
      .BenignAbsence ∧
    flash_bin ⟨.ok (), .error e⟩ = .error (.Dfu e) ∧
    classify_flash (flash_bin ⟨.ok (), .error e⟩) = .Failure (.Dfu e) ∧
    classify_flash (flash_bin ⟨.ok (), .ok ()⟩) = .Success := by
  refine ⟨rfl, rfl, ?_, rfl⟩
  cases e with
  | LibUsb r =>
    cases r with
    | NoDevice => exact absurd rfl hne
    | Io => rfl
    | Access => rfl
    | Busy => rfl
    | Timeout => rfl
  | Core msg => rfl

/-- Claim C5, witness: an I/O transport failure during download is reported
as a `Failure` carrying it, while a `NoDevice` failure is benign. -/
theorem flash_outcome_classification_witness :
    classify_flash (flash_bin ⟨.ok (), .error (.LibUsb .NoDevice)⟩) =
      .BenignAbsence ∧
    flash_bin ⟨.ok (), .error (.LibUsb .Io)⟩ = .error (.Dfu (.LibUsb .Io)) ∧
    classify_flash (flash_bin ⟨.ok (), .error (.LibUsb .Io)⟩) =
      .Failure (.Dfu (.LibUsb .Io)) ∧
    classify_flash (flash_bin ⟨.ok (), .ok ()⟩) = .Success :=
  flash_outcome_classification (.LibUsb .Io) (by decide)

end CargoDfu
